import Mathlib

/-!
Verification of `src/platforms/generate_platform_pages.py` (a DOCX → static
HTML page generator).  Strings are embedded as `List Char` (Python `str` is a
sequence of code points).  Each definition below mirrors the source function of
the same name; ASCII approximations of Python's Unicode character classes
(`\s`, `\d`, `\w`, `str.lower`, `str.strip`) are noted where they occur — every
input appearing in the claims is ASCII (plus the em-dash and the 🎨 marker,
which none of the affected classes touch).
-/

/-- Python `\s` (whitespace), ASCII range as used by `str.strip` / `re`. -/
def isPySpace (c : Char) : Bool :=
  c = ' ' || c = '\t' || c = '\n' || c = '\x0d' || c = '\x0b' || c = '\x0c'

/-- Python `str.strip()`: drop whitespace from both ends. -/
def pstrip (s : List Char) : List Char :=
  ((s.dropWhile isPySpace).reverse.dropWhile isPySpace).reverse

/-- Python `str.lower()` (ASCII case fold; `Char.toLower` only affects A–Z). -/
def lowerS (s : List Char) : List Char := s.map Char.toLower

/-- `leadsWith pre s`: `s` starts with `pre` (Python `str.startswith`). -/
def leadsWith : List Char → List Char → Bool
  | [], _ => true
  | _ :: _, [] => false
  | c :: p, d :: t => c = d && leadsWith p t

/-- `containsSeg needle hay`: `needle` occurs as a contiguous segment of
`hay` (Python's `needle in hay` on strings).  The empty needle matches. -/
def containsSeg (n : List Char) : List Char → Bool
  | [] => n.isEmpty
  | h :: t => leadsWith n (h :: t) || containsSeg n t

/-- Case-insensitive containment: `m.lower() in line.lower()` in the source. -/
def containsCI (line m : List Char) : Bool := containsSeg (lowerS m) (lowerS line)

/-- Python `\d` (digit), ASCII. -/
def isPyDigit (c : Char) : Bool := c.isDigit

/-- Python `\w` (word character), ASCII: letters, digits, underscore. -/
def isWordC (c : Char) : Bool := c.isAlphanum || c = '_'

/-- Tail of the regex `\s+\d+\b` applied after the literal word: at least one
whitespace char, then at least one digit, then a word boundary.  The regex's
`\b` after a (maximal, since `\d+` is greedy and a shorter digit run would put
a digit — a word character — on both sides) digit run holds exactly when the
next character is absent or a non-word character. -/
def wsNumBoundary (rest : List Char) : Bool :=
  let r2 := rest.dropWhile isPySpace
  let r3 := r2.dropWhile isPyDigit
  decide (rest.takeWhile isPySpace ≠ []) &&
  decide (r2.takeWhile isPyDigit ≠ []) &&
  (match r3 with | [] => true | c :: _ => !isWordC c)

/-- `re.match(r"^(MODULE|Module)\s+\d+\b", line)` of `classify_line`. -/
def moduleNumMatch (line : List Char) : Bool :=
  (leadsWith "MODULE".data line || leadsWith "Module".data line) &&
  wsNumBoundary (line.drop 6)

/-- `re.match(r"^(Executive Summary|EXECUTIVE SUMMARY)\b", line)`: the literal
ends in a word character, so `\b` holds when the next char is absent or
non-word. -/
def execSummaryMatch (line : List Char) : Bool :=
  (leadsWith "Executive Summary".data line || leadsWith "EXECUTIVE SUMMARY".data line) &&
  (match line.drop 17 with | [] => true | c :: _ => !isWordC c)

/-- `re.match(r"^(Core Principle:)\b", line)`: the literal ends in `:` (a
non-word character), so the trailing `\b` holds only when the NEXT character
exists and is a word character (a boundary needs a word char on one side). -/
def coreMatch (line : List Char) : Bool :=
  leadsWith "Core Principle:".data line &&
  (match line.drop 15 with | [] => false | c :: _ => isWordC c)

/-- The closed set of minor-heading titles of `classify_line`. -/
def h3Titles : List (List Char) :=
  ["Framework".data, "Case Studies".data, "Challenge Exercise".data,
   "What This Module Builds".data, "Real-World Applications".data,
   "Key Takeaways".data, "Closing".data, "Conclusion".data]

/-- The roles `classify_line` returns (source uses the strings
`"h2"`, `"h3"`, `"core"`, `"p"`). -/
inductive Kind where
  | h2 | h3 | core | p
deriving DecidableEq, Repr

/-- `classify_line` from the source: first matching rule wins. -/
def classify_line (line : List Char) : Kind :=
  if moduleNumMatch line then Kind.h2
  else if execSummaryMatch line then Kind.h2
  else if coreMatch line then Kind.core
  else if pstrip line ∈ h3Titles then Kind.h3
  else Kind.p

/-- `html.escape` (with its default `quote=True`) for one character. -/
def escapeChar (c : Char) : List Char :=
  if c = '&' then "&amp;".data
  else if c = '<' then "&lt;".data
  else if c = '>' then "&gt;".data
  else if c = '"' then "&quot;".data
  else if c = Char.ofNat 39 then "&#x27;".data
  else [c]

/-- `html.escape` on a string (the sequential `str.replace` calls of the
library function act per character, `&` first, so they equal this map). -/
def escape (s : List Char) : List Char := s.flatMap escapeChar

/-- `line.split("Core Principle:", 1)[1].strip()` for a line that starts with
the 15-character label (the only situation the source evaluates it in):
everything after the first occurrence of the label, stripped. -/
def corePayload (line : List Char) : List Char := pstrip (line.drop 15)

/-- One appended element of `build_content_html`'s `out` list, kept
structured; `Piece.render` below reproduces the exact source string. -/
inductive Piece where
  | ulOpen | ulClose
  | h2 (line : List Char)
  | h3 (line : List Char)
  | core (line : List Char)
  | li (line : List Char)
  | para (line : List Char)
deriving DecidableEq, Repr

/-- The exact string the source appends for each piece
(`escape("Core Principle:")` is the label itself: it has no escapable
characters). -/
def Piece.render : Piece → List Char
  | Piece.ulOpen => "<ul class=\"bul\">".data
  | Piece.ulClose => "</ul>".data
  | Piece.h2 l => "<h2 class=\"sec\">".data ++ escape l ++ "</h2>".data
  | Piece.h3 l => "<h3 class=\"subsec\">".data ++ escape l ++ "</h3>".data
  | Piece.core l =>
      "<p class=\"core\"><strong>Core Principle:</strong> ".data ++
      escape (corePayload l) ++ "</p>".data
  | Piece.li l => "<li>".data ++ escape l ++ "</li>".data
  | Piece.para l => "<p class=\"p\">".data ++ escape l ++ "</p>".data

/-- `len(line) <= 110 and line.endswith((".", ")", "—"))` — the
`looks_bulleted` condition of `build_content_html`. -/
def looksBulleted (line : List Char) : Bool :=
  decide (line.length ≤ 110) &&
  (match line.getLast? with
   | some c => c = '.' || c = ')' || c = '—'
   | none => false)

/-- The pieces one loop iteration of `build_content_html` appends, and the new
`in_ul` flag, given the current `in_ul` and `prev_kind` state and the already
classified kind of the (stripped) line.  Mirrors the `if/elif/else` chain of
the source (`close_ul()` runs before a heading, inside the `core` branch, and
in the non-bullet `else`). -/
def renderKind (inUl : Bool) (prevKind : Option Kind) (line : List Char) :
    Kind → List Piece × Bool
  | Kind.h2 => ((if inUl then [Piece.ulClose] else []) ++ [Piece.h2 line], false)
  | Kind.h3 => ((if inUl then [Piece.ulClose] else []) ++ [Piece.h3 line], false)
  | Kind.core => ((if inUl then [Piece.ulClose] else []) ++ [Piece.core line], false)
  | Kind.p =>
      if decide (prevKind = some Kind.h3) && looksBulleted line then
        ((if inUl then [] else [Piece.ulOpen]) ++ [Piece.li line], true)
      else
        ((if inUl then [Piece.ulClose] else []) ++ [Piece.para line], false)

/-- One loop iteration of `build_content_html` on the raw paragraph
(`line = raw.strip()`, `kind = classify_line(line)`). -/
def renderLine (inUl : Bool) (prevKind : Option Kind) (raw : List Char) :
    List Piece × Bool :=
  renderKind inUl prevKind (pstrip raw) (classify_line (pstrip raw))

/-- The rest of `build_content_html`'s loop from an intermediate state, with
the trailing `close_ul()` at end of input.  The loop's `out.append` calls
amount to concatenating each iteration's pieces in order. -/
def renderAll (inUl : Bool) (prevKind : Option Kind) : List (List Char) → List Piece
  | [] => if inUl then [Piece.ulClose] else []
  | raw :: rest =>
      (renderLine inUl prevKind raw).1 ++
      renderAll (renderLine inUl prevKind raw).2 (some (classify_line (pstrip raw))) rest

/-- `build_content_html`'s `out` list, structured (initial state:
`in_ul = False`, `prev_kind = None`). -/
def build_content_pieces (paras : List (List Char)) : List Piece :=
  renderAll false none paras

/-- Python `"\n".join(xs)`. -/
def joinNL : List (List Char) → List Char
  | [] => []
  | [x] => x
  | x :: y :: rest => x ++ '\n' :: joinNL (y :: rest)

/-- `build_content_html` from the source: the joined rendered pieces. -/
def build_content_html (paras : List (List Char)) : List Char :=
  joinNL ((build_content_pieces paras).map Piece.render)

/-- The `(in_ul, prev_kind)` state update of one loop iteration
(`prev_kind = kind` runs at the end of every iteration). -/
def stateStep (s : Bool × Option Kind) (raw : List Char) : Bool × Option Kind :=
  ((renderLine s.1 s.2 raw).2, some (classify_line (pstrip raw)))

/-- The `(in_ul, prev_kind)` state after processing a list of paragraphs from
the initial state. -/
def rstate (pre : List (List Char)) : Bool × Option Kind :=
  pre.foldl stateStep (false, none)

/-- The per-line chunks of `build_content_html`'s output: element `i` holds
the pieces appended while processing paragraph `i`. -/
def chunksFrom (s : Bool × Option Kind) : List (List Char) → List (List Piece)
  | [] => []
  | raw :: rest => (renderLine s.1 s.2 raw).1 :: chunksFrom (stateStep s raw) rest

/-- `cut_section`'s scan: truncate before the first line containing any
marker. -/
def lineHasMarker (line : List Char) (ms : List (List Char)) : Bool :=
  ms.any (fun m => containsCI line m)

/-- The double loop of `cut_section`: `paras[:i]` at the first match, the
whole list when none matches. -/
def cutLoop (ms : List (List Char)) : List (List Char) → List (List Char)
  | [] => []
  | l :: rest => if lineHasMarker l ms then [] else l :: cutLoop ms rest

/-- `cut_section` from the source (`if not end_markers: return paras` covers
both `None` and the empty list). -/
def cut_section (paras : List (List Char)) (end_markers : Option (List (List Char))) :
    List (List Char) :=
  match end_markers with
  | none => paras
  | some ms => if ms.isEmpty then paras else cutLoop ms paras

/-!
`wrap_page` splits into the literal template chunks around the five
interpolation points of the source's f-string (`{escape(title)}` twice,
`{nav}`, `{content_html}`, `{gallery}`).  The chunk constants below are the
source text verbatim (doubled braces of the f-string denote literal braces).
-/

def tplA : List Char := "<!doctype html>\n<html lang=\"en\">\n<head>\n  <meta charset=\"utf-8\" />\n  <meta name=\"viewport\" content=\"width=device-width,initial-scale=1\" />\n  <title>".data

def tplB : List Char := "</title>\n  <style>\n    :root \x7b\n      --bg:#0b0f17; --panel:#101827; --text:#e9eefc; --muted:#b7c2df; --line:rgba(255,255,255,.12);\n      --accent:#ff7a18; --shadow:0 18px 60px rgba(0,0,0,.45);\n      --r:18px; --r2:24px; --max:1100px;\n      --sans: ui-sans-serif, system-ui, -apple-system, Segoe UI, Roboto, Helvetica, Arial;\n    \x7d\n    *\x7bbox-sizing:border-box\x7d\n    body\x7bmargin:0;font-family:var(--sans);color:var(--text);background:linear-gradient(180deg,#070a11,var(--bg));\x7d\n    .wrap\x7bmax-width:var(--max);margin:0 auto;padding:0 22px;\x7d\n    header\x7bposition:sticky;top:0;z-index:40;backdrop-filter: blur(12px);background:rgba(10,15,24,.75);border-bottom:1px solid var(--line);\x7d\n    .top\x7bdisplay:flex;gap:14px;align-items:center;justify-content:space-between;padding:14px 0;flex-wrap:wrap;\x7d\n    .brand\x7bfont-weight:800;letter-spacing:.2px\x7d\n    nav a\x7bcolor:var(--muted);text-decoration:none;border:1px solid var(--line);padding:8px 12px;border-radius:999px;font-size:13px;\x7d\n    nav a:hover\x7bcolor:var(--text);border-color:rgba(255,255,255,.22)\x7d\n    .hero\x7bpadding:26px 0 10px;\x7d\n    .hero h1\x7bmargin:0 0 8px;font-size:34px;letter-spacing:-.02em\x7d\n    .hero p\x7bmargin:0;color:var(--muted);max-width:75ch;line-height:1.55\x7d\n    .card\x7bborder:1px solid var(--line);background:rgba(16,24,39,.58);border-radius:var(--r2);box-shadow:var(--shadow);padding:18px;margin:14px 0;\x7d\n    .sec\x7bmargin:0 0 10px;font-size:20px;letter-spacing:-.01em\x7d\n    .subsec\x7bmargin:14px 0 8px;font-size:16px;color:var(--text)\x7d\n    .p\x7bmargin:0 0 10px;color:var(--muted);line-height:1.6\x7d\n    .core\x7bmargin:0 0 10px;color:var(--muted);line-height:1.6;border-left:3px solid rgba(255,122,24,.55);padding-left:12px\x7d\n    .bul\x7bmargin:6px 0 10px;padding-left:18px;color:var(--muted);line-height:1.55\x7d\n    .bul li\x7bmargin:6px 0\x7d\n    .note\x7bcolor:rgba(255,255,255,.65);font-size:13px;line-height:1.5\x7d\n    .imggrid\x7bdisplay:grid;grid-template-columns:repeat(3,minmax(0,1fr));gap:10px\x7d\n    .img\x7bborder:1px solid var(--line);border-radius:16px;overflow:hidden;background:rgba(0,0,0,.12);margin:0\x7d\n    .img img\x7bwidth:100%;height:160px;object-fit:cover;display:block\x7d\n    .img figcaption\x7bpadding:8px 10px;color:rgba(255,255,255,.65);font-size:12px\x7d\n    @media (max-width: 920px)\x7b .imggrid\x7bgrid-template-columns:1fr\x7d \x7d\n    footer\x7bborder-top:1px solid var(--line);padding:26px 0 44px;color:rgba(255,255,255,.62);font-size:13px;margin-top:24px\x7d\n  </style>\n</head>\n<body>\n<header>\n  <div class=\"wrap\">\n    <div class=\"top\">\n      <div class=\"brand\">Luke Carter · Platforms</div>\n      <nav aria-label=\"platform navigation\">".data

def tplC : List Char := "</nav>\n    </div>\n  </div>\n</header>\n\n<div class=\"wrap\">\n  <section class=\"hero\">\n    <h1>".data

def tplD : List Char := "</h1>\n    <p>This page is generated directly from the Word document so no module content gets lost. If you update the doc, re-run the script.</p>\n  </section>\n\n  <section class=\"card\">\n    ".data

def tplE : List Char := "\n  </section>\n\n  ".data

def tplF : List Char := "\n\n  <footer>\n    Tip: If a doc contains multiple platforms appended, adjust END_MARKERS in the script so each page cuts off at the correct boundary.\n  </footer>\n</div>\n</body>\n</html>\n".data

def navHtml : List Char := "\n      <a href=\"index.html\">All Modules</a>\n      <a href=\"platforms/business.html\">Business</a>\n      <a href=\"platforms/sports.html\">Sports</a>\n      <a href=\"platforms/if.html\">If—</a>\n      <a href=\"platforms/guitar.html\">Guitar</a>\n      <a href=\"platforms/spiritual.html\">Spiritual</a>\n      <a href=\"platforms/dadjokes.html\">Dad Jokes</a>\n      <a href=\"platforms/power.html\">Power</a>\n      <a href=\"platforms/art.html\">Art/Sketch</a>\n    ".data

def galA : List Char := "\n        <section class=\"card\">\n          <h2 class=\"sec\">Images from the Word document</h2>\n          <p class=\"note\">These were extracted automatically. You can later move each image into the exact module where it belongs.</p>\n          <div class=\"imggrid\">\n            ".data

def galB : List Char := "\n          </div>\n        </section>\n        ".data

/-- The relative image path the gallery figure uses:
`../images/{platform_key}/{escape(name)}`. -/
def imgPath (platform_key name : List Char) : List Char :=
  "../images/".data ++ platform_key ++ "/".data ++ escape name

/-- One gallery figure, exactly the f-string of `wrap_page`:
`<figure class="img"><img src="../images/{platform_key}/{escape(name)}"
alt="{escape(name)}"><figcaption>{escape(name)}</figcaption></figure>`. -/
def galleryFig (platform_key name : List Char) : List Char :=
  "<figure class=\"img\"><img src=\"".data ++ imgPath platform_key name ++
  "\" alt=\"".data ++ escape name ++ "\"><figcaption>".data ++ escape name ++
  "</figcaption></figure>".data

/-- The gallery block of `wrap_page`: empty string when no image was
extracted (`if extracted_images:`), otherwise the section with every figure
joined by newlines. -/
def gallery (platform_key : List Char) (extracted_images : List (List Char)) :
    List Char :=
  match extracted_images with
  | [] => []
  | _ :: _ => galA ++ joinNL (extracted_images.map (galleryFig platform_key)) ++ galB

/-- `wrap_page` from the source: the template chunks around the five
interpolation points. -/
def wrap_page (platform_key title content_html : List Char)
    (extracted_images : List (List Char)) : List Char :=
  tplA ++ escape title ++ tplB ++ navHtml ++ tplC ++ escape title ++ tplD ++
  content_html ++ tplE ++ gallery platform_key extracted_images ++ tplF

/-- The page `wrap_page` builds when no image was extracted: the gallery
block contributes nothing. -/
def pageNoGallery (platform_key title content_html : List Char) : List Char :=
  tplA ++ escape title ++ tplB ++ navHtml ++ tplC ++ escape title ++ tplD ++
  content_html ++ tplE ++ tplF

/-- The per-document page assembly of `main`
(`content_html = build_content_html(paras)`; `html = wrap_page(...)`). -/
def makePage (key title : List Char) (paras : List (List Char))
    (imgs : List (List Char)) : List Char :=
  wrap_page key title (build_content_html paras) imgs

/-- What the filesystem holds at a configured source path, abstracting the
archive to what `read_docx_paragraphs` / `extract_docx_images` produce from
it: the file may be absent, openable (yielding the paragraph list and the
`word/media` image names), or corrupt — not a readable zip, or missing the
`word/document.xml` body entry, in which case `zipfile.ZipFile` / `z.read`
raises. -/
inductive DocxFile where
  | missing
  | corrupt
  | ok (paras : List (List Char)) (images : List (List Char))

/-- The exception `read_docx_paragraphs` lets escape on a corrupt archive
(`zipfile.BadZipFile` / `KeyError`). -/
inductive ZipErr where
  | badArchive
deriving DecidableEq, Repr

/-- One printed per-document outcome of `main`. -/
inductive Report where
  | skip (key : List Char)
  | written (key : List Char) (page : List Char) (imageCount : Nat)
deriving DecidableEq, Repr

/-- The `DOCS` configuration list of the source. -/
def DOCS : List (List Char × List Char) :=
  [("business".data, "Business and Entrepenurship Platform.docx".data),
   ("sports".data, "THE SPORTS LEADERSHIP PLATFORM.docx".data),
   ("if".data, "If Leadership Platform.docx".data),
   ("guitar".data, "THE GUITAR TRAINING PLATFORM.docx".data),
   ("spiritual".data, "Spiritual Leadership.docx".data),
   ("dadjokes".data, "THE DAD JOKE MASTERY PLATFORM.docx".data),
   ("power".data, "Power platform.docx".data),
   ("art".data, "🎨 THE ADVANCED SKETCH PLATFORM.docx".data)]

/-- `END_MARKERS.get(key)` of the source. -/
def END_MARKERS (key : List Char) : Option (List (List Char)) :=
  if key = "sports".data then
    some ["🎨".data, "THE ADVANCED SKETCH".data, "See More. Choose More. Create More.".data]
  else if key = "spiritual".data then
    some ["See More. Choose More. Create More.".data, "🎨".data, "THE ADVANCED SKETCH".data]
  else none

/-- Python `str.title()` (ASCII): uppercase a letter that follows a
non-letter, lowercase the rest. -/
def titleAux : Bool → List Char → List Char
  | _, [] => []
  | prevAlpha, c :: cs =>
      (if prevAlpha then c.toLower else c.toUpper) :: titleAux c.isAlpha cs

/-- Python `key.title()`. -/
def pyTitle (s : List Char) : List Char := titleAux false s

/-- The per-entry loop of `main`, driven by a filesystem assignment `fs`.
A missing file is reported and skipped (`continue`); on a corrupt archive the
exception from `read_docx_paragraphs` propagates — the remaining entries are
NOT processed; otherwise the entry's page is assembled exactly as in the
source (`cut_section` with `END_MARKERS.get(key)`, title = first paragraph or
the `f"{key.title()} Platform"` fallback). -/
def processEntries (fs : List Char → DocxFile) :
    List (List Char × List Char) → Except ZipErr (List Report)
  | [] => Except.ok []
  | (key, filename) :: rest =>
      match fs filename with
      | DocxFile.missing =>
          (processEntries fs rest).map (fun rs => Report.skip key :: rs)
      | DocxFile.corrupt => Except.error ZipErr.badArchive
      | DocxFile.ok paras images =>
          let paras2 := cut_section paras (END_MARKERS key)
          let title := match paras2 with
            | [] => pyTitle key ++ " Platform".data
            | t :: _ => t
          let page := wrap_page key title (build_content_html paras2) images
          (processEntries fs rest).map
            (fun rs => Report.written key page images.length :: rs)

/-- `main` over the configured document list. -/
def runMain (fs : List Char → DocxFile) : Except ZipErr (List Report) :=
  processEntries fs DOCS

/-- `SubSeg l m`: `l` occurs contiguously inside `m`. -/
def SubSeg (l m : List Char) : Prop := ∃ s t, s ++ l ++ t = m

/-- Modelled from the claim's wording for C4 (not from the source): a line
that "begins with the word Module in any letter casing, followed by
whitespace and a number" — the case-insensitive module-number pattern. -/
def ciModuleNum (line : List Char) : Bool :=
  leadsWith "module".data (lowerS line) && wsNumBoundary (line.drop 6)

/-- Every opened list container in a piece list holds exactly one item:
an open tag is immediately followed by a single list item and then the
closing tag. -/
def OneItem (out : List Piece) : Prop :=
  ∀ i, out[i]? = some Piece.ulOpen →
    ∃ t, out[i + 1]? = some (Piece.li t) ∧ out[i + 2]? = some Piece.ulClose

/-- A filesystem in which the first configured source file exists but is not
a readable archive, while every other configured file is absent. -/
def fsBusinessCorrupt : List Char → DocxFile := fun f =>
  if f = "Business and Entrepenurship Platform.docx".data then DocxFile.corrupt
  else DocxFile.missing

/-- A filesystem with no configured source file present. -/
def fsAllMissing : List Char → DocxFile := fun _ => DocxFile.missing

/-- Occurrences of one piece in a piece list. -/
def numOf (p : Piece) : List Piece → Nat
  | [] => 0
  | x :: t => (if x = p then 1 else 0) + numOf p t

/-! ## Lemmas about the Section Clipper -/

theorem leadsWith_self (l : List Char) : leadsWith l l = true := by
  induction l with
  | nil => rfl
  | cons c t ih => simp [leadsWith, ih]

theorem containsSeg_self (l : List Char) : containsSeg l l = true := by
  cases l with
  | nil => rfl
  | cons c t => simp [containsSeg, leadsWith_self]

theorem containsCI_self (l : List Char) : containsCI l l = true := by
  simp [containsCI, containsSeg_self]

theorem lineHasMarker_singleton (l m : List Char) :
    lineHasMarker l [m] = containsCI l m := by
  simp [lineHasMarker]

theorem cutLoop_id (ms : List (List Char)) :
    ∀ paras, (∀ l ∈ paras, lineHasMarker l ms = false) → cutLoop ms paras = paras := by
  intro paras
  induction paras with
  | nil => intro _; rfl
  | cons a t ih =>
      intro h
      have ha := h a (by simp)
      simp only [cutLoop, ha, if_false, Bool.false_eq_true, List.cons.injEq, true_and]
      exact ih (fun l hl => h l (by simp [hl]))

theorem cutLoop_take (ms : List (List Char)) :
    ∀ (paras : List (List Char)) (i : Nat) (hi : i < paras.length),
      lineHasMarker paras[i] ms = true →
      (∀ j (hj : j < i), lineHasMarker paras[j] ms = false) →
      cutLoop ms paras = paras.take i := by
  intro paras
  induction paras with
  | nil => intro i hi; simp at hi
  | cons a t ih =>
      intro i hi hm hprev
      cases i with
      | zero =>
          simp only [List.getElem_cons_zero] at hm
          simp [cutLoop, hm]
      | succ j =>
          have h0 : lineHasMarker a ms = false := by
            have := hprev 0 (Nat.succ_pos j)
            simpa using this
          simp only [cutLoop, h0, Bool.false_eq_true, if_false, List.take_succ_cons,
            List.cons.injEq, true_and]
          refine ih j (by simpa using hi) (by simpa using hm) ?_
          intro j' hj'
          have := hprev (j' + 1) (by omega)
          simpa using this

/-- C6: `cut_section` is the identity when the marker list is absent, empty,
or never matches; otherwise it returns exactly the paragraphs before the
first one containing any configured marker as a case-insensitive substring. -/
theorem cut_section_spec (paras : List (List Char)) (ms : List (List Char)) :
    cut_section paras none = paras ∧
    cut_section paras (some []) = paras ∧
    ((∀ l ∈ paras, lineHasMarker l ms = false) → cut_section paras (some ms) = paras) ∧
    (∀ i (hi : i < paras.length), lineHasMarker paras[i] ms = true →
      (∀ j (hj : j < i), lineHasMarker paras[j] ms = false) →
      cut_section paras (some ms) = paras.take i) := by
  refine ⟨rfl, rfl, ?_, ?_⟩
  · intro h
    cases ms with
    | nil => rfl
    | cons m ms' => simpa [cut_section] using cutLoop_id _ paras h
  · intro i hi hm hprev
    cases ms with
    | nil => simp [lineHasMarker] at hm
    | cons m ms' => simpa [cut_section] using cutLoop_take _ paras i hi hm hprev

/-- C6 witness: the marker "STOP" (case-insensitively contained in
"stop here") cuts `["x", "stop here", "y"]` down to `["x"]`. -/
theorem cut_section_spec_witness :
    ((1 : Nat) < (["x".data, "stop here".data, "y".data] : List (List Char)).length ∧
     lineHasMarker "stop here".data ["STOP".data] = true) ∧
    cut_section ["x".data, "stop here".data, "y".data] (some ["STOP".data]) =
      (["x".data, "stop here".data, "y".data] : List (List Char)).take 1 := by
  refine ⟨⟨by decide, by decide⟩, ?_⟩
  exact (cut_section_spec ["x".data, "stop here".data, "y".data] ["STOP".data]).2.2.2
    1 (by decide) (by decide)
    (fun j hj => by
      have hj0 : j = 0 := by omega
      subst hj0
      simp only [List.getElem_cons_zero]
      decide)

/-- C7 counterexample: with `paras = ["ab", "a"]` and the marker equal to the
exact text of paragraph 1 (`"a"`), the clipper cuts at paragraph 0 (which
contains `"a"` as a substring), so the result is `[]`, not `paras[:1]`. -/
theorem cut_exact_text_counterexample :
    (["ab".data, "a".data] : List (List Char))[1]? = some "a".data ∧
    cut_section ["ab".data, "a".data] (some ["a".data]) ≠
      (["ab".data, "a".data] : List (List Char)).take 1 := by
  decide

/-- C7 amended: with a marker list whose only marker equals the exact text of
paragraph `i`, and provided no earlier paragraph contains that text as a
case-insensitive substring, the clipper truncates to exactly `paras[:i]`. -/
theorem cut_at_own_text (paras : List (List Char)) (i : Nat) (hi : i < paras.length)
    (hbefore : ∀ j (hj : j < i), containsCI paras[j] paras[i] = false) :
    cut_section paras (some [paras[i]]) = paras.take i := by
  have h1 : cutLoop [paras[i]] paras = paras.take i := by
    refine cutLoop_take [paras[i]] paras i hi ?_ ?_
    · rw [lineHasMarker_singleton]
      exact containsCI_self _
    · intro j hj
      rw [lineHasMarker_singleton]
      exact hbefore j hj
  simpa [cut_section] using h1

/-- C7 witness: paragraph 1's text "second marker." occurs in no earlier
paragraph, so the clipper with exactly that marker keeps `["first"]`. -/
theorem cut_at_own_text_witness :
    ((1 : Nat) < (["first".data, "second marker.".data, "third".data] : List (List Char)).length) ∧
    cut_section ["first".data, "second marker.".data, "third".data]
        (some [(["first".data, "second marker.".data, "third".data] : List (List Char))[1]]) =
      (["first".data, "second marker.".data, "third".data] : List (List Char)).take 1 :=
  ⟨by decide,
   cut_at_own_text ["first".data, "second marker.".data, "third".data] 1 (by decide)
     (fun j hj => by
       have hj0 : j = 0 := by omega
       subst hj0
       simp only [List.getElem_cons_zero, List.getElem_cons_succ]
       decide)⟩

/-! ## Line Classifier -/

/-- C4 counterexample: "module 3: Scaling" begins with the module-number
pattern read case-insensitively (`ciModuleNum`), yet `classify_line` — whose
regex alternation covers only the spellings `MODULE` and `Module` — does not
assign the major-heading role to it. -/
theorem module_case_sensitivity_counterexample :
    ciModuleNum "module 3: Scaling".data = true ∧
    classify_line "module 3: Scaling".data ≠ Kind.h2 := by
  decide

/-- C4 amended: every line beginning with the module-number pattern spelled
`Module` or `MODULE` (followed by whitespace and a number at a word boundary)
classifies as a major heading — the first classifier rule, checked before any
other, so surrounding rules never override it; but the match is not
case-insensitive: other casings of the word are not matched. -/
theorem module_line_major_heading (line : List Char)
    (h : moduleNumMatch line = true) : classify_line line = Kind.h2 := by
  simp [classify_line, h]

/-- C4 witness: "MODULE 2: Plans" matches and classifies as a major
heading. -/
theorem module_line_major_heading_witness :
    moduleNumMatch "MODULE 2: Plans".data = true ∧
    classify_line "MODULE 2: Plans".data = Kind.h2 :=
  ⟨by decide, module_line_major_heading "MODULE 2: Plans".data (by decide)⟩

/-! ## Content Renderer: concrete scenario -/

/-- C1 (failing-input evaluation): on
`["Module 1", "Framework", "Builds trust.", "Builds trust again.", "Conclusion"]`
the renderer emits the major heading, the minor heading "Framework", a list
holding ONLY "Builds trust.", then closes the list and emits
"Builds trust again." as a plain paragraph before the minor heading
"Conclusion" — because after the first bullet `prev_kind` is `"p"`, not
`"h3"`, so the second short line fails the bullet context even though the
source's own comments say a run of short lines after the heading becomes
bullets. -/
theorem module_scenario_rendering :
    build_content_pieces
        ["Module 1".data, "Framework".data, "Builds trust.".data,
         "Builds trust again.".data, "Conclusion".data] =
      [Piece.h2 "Module 1".data, Piece.h3 "Framework".data, Piece.ulOpen,
       Piece.li "Builds trust.".data, Piece.ulClose,
       Piece.para "Builds trust again.".data, Piece.h3 "Conclusion".data] := by
  decide

/-! ## Driver error handling -/

/-- C5 (failing-input evaluation): when the first configured document's file
exists but cannot be read as an archive, `main` aborts with the uncaught
archive error and produces NO report for any of the remaining seven entries —
it does not skip and continue; missing files, by contrast, are skipped and
the run completes with all eight entries reported. -/
theorem driver_aborts_on_corrupt_archive :
    runMain fsBusinessCorrupt = Except.error ZipErr.badArchive ∧
    runMain fsAllMissing =
      Except.ok
        [Report.skip "business".data, Report.skip "sports".data,
         Report.skip "if".data, Report.skip "guitar".data,
         Report.skip "spiritual".data, Report.skip "dadjokes".data,
         Report.skip "power".data, Report.skip "art".data] := by
  constructor
  · rfl
  · rfl

/-! ## Determinism -/

/-- C9: the page assembly is a pure function of the extracted paragraph
sequence, title, key and image-filename list — no clock, randomness or
cross-document state enters `build_content_html`/`wrap_page` — so two runs
over the same four inputs produce the identical markup string. -/
theorem pipeline_deterministic (key title : List Char) (paras imgs : List (List Char)) :
    makePage key title paras imgs = makePage key title paras imgs := rfl

/-! ## Content Renderer: list balance -/

theorem numOf_append (p : Piece) (A B : List Piece) :
    numOf p (A ++ B) = numOf p A + numOf p B := by
  induction A with
  | nil => simp [numOf]
  | cons x t ih => simp [numOf, ih]; omega

theorem renderAll_balance (paras : List (List Char)) :
    ∀ (u : Bool) (k : Option Kind),
      numOf Piece.ulClose (renderAll u k paras) =
      numOf Piece.ulOpen (renderAll u k paras) + (if u then 1 else 0) := by
  induction paras with
  | nil => intro u k; cases u <;> simp [renderAll, numOf]
  | cons raw rest ih =>
      intro u k
      rw [renderAll]
      rcases hcl : classify_line (pstrip raw) with _ | _ | _ | _
      · have h := ih false (some Kind.h2)
        cases u <;> simp [renderLine, renderKind, hcl, numOf_append, numOf, h] <;> omega
      · have h := ih false (some Kind.h3)
        cases u <;> simp [renderLine, renderKind, hcl, numOf_append, numOf, h] <;> omega
      · have h := ih false (some Kind.core)
        cases u <;> simp [renderLine, renderKind, hcl, numOf_append, numOf, h] <;> omega
      · cases hb : (decide (k = some Kind.h3) && looksBulleted (pstrip raw)) with
        | true =>
            have h := ih true (some Kind.p)
            cases u <;>
              simp [renderLine, renderKind, hcl, hb, numOf_append, numOf, h] <;> omega
        | false =>
            have h := ih false (some Kind.p)
            cases u <;>
              simp [renderLine, renderKind, hcl, hb, numOf_append, numOf, h] <;> omega

/-- C3: over every input paragraph sequence the renderer emits as many list
openers as list closers (`<ul class="bul">` / `</ul>` pieces), the final
`close_ul()` at end of input included. -/
theorem ul_open_close_balanced (paras : List (List Char)) :
    numOf Piece.ulOpen (build_content_pieces paras) =
    numOf Piece.ulClose (build_content_pieces paras) := by
  have h := renderAll_balance paras false none
  simp only [if_neg (by simp : ¬ (false = true))] at h
  simpa [build_content_pieces] using h.symm

/-! ## Content Renderer: every list holds exactly one item -/

theorem oneItem_append (A B : List Piece) (hA : ∀ x ∈ A, x ≠ Piece.ulOpen)
    (hB : OneItem B) : OneItem (A ++ B) := by
  intro i h
  by_cases hi : i < A.length
  · rw [List.getElem?_append_left hi] at h
    exact absurd rfl (hA _ (List.getElem?_mem h))
  · push_neg at hi
    rw [List.getElem?_append_right hi] at h
    obtain ⟨t, h1, h2⟩ := hB (i - A.length) h
    refine ⟨t, ?_, ?_⟩
    · rw [List.getElem?_append_right (by omega)]
      have e : i + 1 - A.length = i - A.length + 1 := by omega
      rw [e]; exact h1
    · rw [List.getElem?_append_right (by omega)]
      have e : i + 2 - A.length = i - A.length + 2 := by omega
      rw [e]; exact h2

theorem oneItem_bullet (t : List Char) (B : List Piece) (hB : OneItem B)
    (hh : B.head? = some Piece.ulClose) :
    OneItem (Piece.ulOpen :: Piece.li t :: B) := by
  intro i h
  cases i with
  | zero =>
      refine ⟨t, by simp, ?_⟩
      have h0 : B[0]? = some Piece.ulClose := by
        cases B with
        | nil => simp at hh
        | cons b bs => simpa using hh
      simpa using h0
  | succ i =>
      cases i with
      | zero => simp at h
      | succ i =>
          simp only [List.getElem?_cons_succ] at h ⊢
          exact hB i h

theorem renderAll_oneItem (paras : List (List Char)) :
    ∀ (u : Bool) (k : Option Kind), (k = some Kind.h3 → u = false) →
      OneItem (renderAll u k paras) ∧
      (u = true → (renderAll u k paras).head? = some Piece.ulClose) := by
  induction paras with
  | nil =>
      intro u k _
      cases u with
      | false =>
          refine ⟨?_, by simp⟩
          intro i h
          simp [renderAll] at h
      | true =>
          refine ⟨?_, fun _ => rfl⟩
          intro i h
          cases i with
          | zero => simp [renderAll] at h
          | succ j => simp [renderAll] at h
  | cons raw rest ih =>
      intro u k hk
      rw [renderAll]
      rcases hcl : classify_line (pstrip raw) with _ | _ | _ | _
      · obtain ⟨hB, _⟩ := ih false (some Kind.h2) (by simp)
        constructor
        · refine oneItem_append _ _ ?_ (by simpa [renderLine, renderKind, hcl] using hB)
          intro x hx
          cases u <;> simp [renderLine, renderKind, hcl] at hx <;>
            first
            | (subst hx; simp)
            | (rcases hx with hx | hx <;> subst hx <;> simp)
        · intro hu
          subst hu
          simp [renderLine, renderKind, hcl]
      · obtain ⟨hB, _⟩ := ih false (some Kind.h3) (fun _ => rfl)
        constructor
        · refine oneItem_append _ _ ?_ (by simpa [renderLine, renderKind, hcl] using hB)
          intro x hx
          cases u <;> simp [renderLine, renderKind, hcl] at hx <;>
            first
            | (subst hx; simp)
            | (rcases hx with hx | hx <;> subst hx <;> simp)
        · intro hu
          subst hu
          simp [renderLine, renderKind, hcl]
      · obtain ⟨hB, _⟩ := ih false (some Kind.core) (by simp)
        constructor
        · refine oneItem_append _ _ ?_ (by simpa [renderLine, renderKind, hcl] using hB)
          intro x hx
          cases u <;> simp [renderLine, renderKind, hcl] at hx <;>
            first
            | (subst hx; simp)
            | (rcases hx with hx | hx <;> subst hx <;> simp)
        · intro hu
          subst hu
          simp [renderLine, renderKind, hcl]
      · cases hb : (decide (k = some Kind.h3) && looksBulleted (pstrip raw)) with
        | true =>
            have hk3 : k = some Kind.h3 := by
              have := (Bool.and_eq_true _ _).mp hb
              exact of_decide_eq_true this.1
            have hu : u = false := hk hk3
            subst hu
            obtain ⟨hB, hh⟩ := ih true (some Kind.p) (by simp)
            constructor
            · have := oneItem_bullet (pstrip raw) _ hB (hh rfl)
              simpa [renderLine, renderKind, hcl, hb] using this
            · intro hfalse
              cases hfalse
        | false =>
            obtain ⟨hB, _⟩ := ih false (some Kind.p) (by simp)
            constructor
            · refine oneItem_append _ _ ?_ (by simpa [renderLine, renderKind, hcl, hb] using hB)
              intro x hx
              cases u <;> simp [renderLine, renderKind, hcl, hb] at hx <;>
                first
                | (subst hx; simp)
                | (rcases hx with hx | hx <;> subst hx <;> simp)
            · intro hu
              subst hu
              simp [renderLine, renderKind, hcl, hb]

/-- C10: every bullet-list container the renderer opens holds exactly one
list item: an opening `<ul>` piece is immediately followed by a single `<li>`
piece and then the closing `</ul>` piece — the bullet context requires the
previous line's role to be a minor heading, and a rendered item's own role is
paragraph-candidate, so the list closes on the very next line (or at end of
input). -/
theorem ul_single_item (paras : List (List Char)) (i : Nat)
    (h : (build_content_pieces paras)[i]? = some Piece.ulOpen) :
    ∃ t, (build_content_pieces paras)[i + 1]? = some (Piece.li t) ∧
         (build_content_pieces paras)[i + 2]? = some Piece.ulClose :=
  (renderAll_oneItem paras false none (by simp)).1 i h

/-- C10 witness: after the minor heading "Key Takeaways", the short line
"Win daily." opens a list that holds exactly that one item. -/
theorem ul_single_item_witness :
    (build_content_pieces ["Key Takeaways".data, "Win daily.".data])[1]? =
      some Piece.ulOpen ∧
    ∃ t, (build_content_pieces ["Key Takeaways".data, "Win daily.".data])[1 + 1]? =
           some (Piece.li t) ∧
         (build_content_pieces ["Key Takeaways".data, "Win daily.".data])[1 + 2]? =
           some Piece.ulClose :=
  ⟨by decide, ul_single_item ["Key Takeaways".data, "Win daily.".data] 1 (by decide)⟩

/-! ## Content Renderer: the bullet decision -/

theorem renderAll_chunks (paras : List (List Char)) :
    ∀ s : Bool × Option Kind,
      renderAll s.1 s.2 paras =
        (chunksFrom s paras).flatten ++
        (if (paras.foldl stateStep s).1 then [Piece.ulClose] else []) := by
  induction paras with
  | nil => intro s; simp [renderAll, chunksFrom]
  | cons raw rest ih =>
      intro s
      rw [renderAll]
      have h := ih (stateStep s raw)
      simp only [chunksFrom, List.flatten_cons, List.foldl_cons, List.append_assoc]
      rw [show (renderLine s.1 s.2 raw).2 = (stateStep s raw).1 from rfl]
      rw [show (some (classify_line (pstrip raw))) = (stateStep s raw).2 from rfl]
      rw [h]

theorem chunksFrom_get (paras : List (List Char)) :
    ∀ (s : Bool × Option Kind) (i : Nat) (raw : List Char), paras[i]? = some raw →
      (chunksFrom s paras)[i]? =
        some ((renderLine ((paras.take i).foldl stateStep s).1
                ((paras.take i).foldl stateStep s).2 raw).1) := by
  induction paras with
  | nil => intro s i raw h; simp at h
  | cons a t ih =>
      intro s i raw h
      cases i with
      | zero =>
          simp only [List.getElem?_cons_zero, Option.some.injEq] at h
          subst h
          simp [chunksFrom]
      | succ j =>
          simp only [List.getElem?_cons_succ] at h
          simpa [chunksFrom, List.take_succ_cons] using ih (stateStep s a) j raw h

theorem state_prev (paras : List (List Char)) :
    ∀ (s : Bool × Option Kind) (i : Nat) (raw : List Char), paras[i]? = some raw →
      ((paras.take (i + 1)).foldl stateStep s).2 =
        some (classify_line (pstrip raw)) := by
  induction paras with
  | nil => intro s i raw h; simp at h
  | cons a t ih =>
      intro s i raw h
      cases i with
      | zero =>
          simp only [List.getElem?_cons_zero, Option.some.injEq] at h
          subst h
          simp [stateStep]
      | succ j =>
          simp only [List.getElem?_cons_succ] at h
          simpa [List.take_succ_cons] using ih (stateStep s a) j raw h

/-- C2: a line classified as paragraph-candidate is emitted as a bullet list
item exactly when (a) the immediately preceding line's classified role was
the minor-heading role AND (b) its stripped length is at most 110 and its
last character is `.`, `)` or the em-dash (`looksBulleted`); in that case the
list container opens unless already open, and otherwise any open container is
closed and the line becomes a plain paragraph.  The first conjunct gives the
pieces the renderer appends for line `i`; the second ties those per-line
chunks back to `build_content_html`'s output list. -/
theorem bullet_decision_iff (paras : List (List Char)) (i : Nat)
    (hi : i < paras.length)
    (hp : classify_line (pstrip paras[i]) = Kind.p) :
    (chunksFrom (false, none) paras)[i]? =
      some
        (if 0 < i ∧ classify_line (pstrip paras[i - 1]) = Kind.h3 ∧
            looksBulleted (pstrip paras[i]) = true then
          (if (rstate (paras.take i)).1 then [] else [Piece.ulOpen]) ++
            [Piece.li (pstrip paras[i])]
        else
          (if (rstate (paras.take i)).1 then [Piece.ulClose] else []) ++
            [Piece.para (pstrip paras[i])]) ∧
    build_content_pieces paras =
      (chunksFrom (false, none) paras).flatten ++
      (if (rstate paras).1 then [Piece.ulClose] else []) := by
  constructor
  · rw [chunksFrom_get paras (false, none) i paras[i] (List.getElem?_eq_getElem hi)]
    congr 1
    simp only [renderLine, hp, renderKind]
    rcases Nat.eq_zero_or_pos i with hz | hpos
    · subst hz
      simp [rstate]
    · have hio : i - 1 + 1 = i := by omega
      have hst := state_prev paras (false, none) (i - 1) paras[i - 1]
        (List.getElem?_eq_getElem (by omega))
      have htk : List.take i paras = List.take (i - 1 + 1) paras := by rw [hio]
      have hst2 : (List.foldl stateStep (false, none) (List.take i paras)).2 =
          some (classify_line (pstrip paras[i - 1])) := by
        rw [htk]; exact hst
      rw [hst2]
      by_cases hc : classify_line (pstrip paras[i - 1]) = Kind.h3
      · by_cases hb : looksBulleted (pstrip paras[i]) = true
        · simp [hc, hb, hpos, rstate]
        · rw [Bool.not_eq_true] at hb
          simp [hc, hb, rstate]
      · simp [hc, rstate]
  · exact renderAll_chunks paras (false, none)

/-- C2 witness: after the minor heading "Framework", the short line
"Builds trust." (13 chars, ends in `.`) is emitted as the single item of a
freshly opened list. -/
theorem bullet_decision_iff_witness :
    ((1 : Nat) < (["Framework".data, "Builds trust.".data] : List (List Char)).length ∧
     classify_line
       (pstrip (["Framework".data, "Builds trust.".data] : List (List Char))[1]) = Kind.p) ∧
    ((chunksFrom (false, none) ["Framework".data, "Builds trust.".data])[1]? =
      some
        (if 0 < 1 ∧
            classify_line
              (pstrip (["Framework".data, "Builds trust.".data] : List (List Char))[1 - 1]) =
              Kind.h3 ∧
            looksBulleted
              (pstrip (["Framework".data, "Builds trust.".data] : List (List Char))[1]) = true then
          (if (rstate ((["Framework".data, "Builds trust.".data] : List (List Char)).take 1)).1
            then [] else [Piece.ulOpen]) ++
            [Piece.li (pstrip (["Framework".data, "Builds trust.".data] : List (List Char))[1])]
        else
          (if (rstate ((["Framework".data, "Builds trust.".data] : List (List Char)).take 1)).1
            then [Piece.ulClose] else []) ++
            [Piece.para (pstrip (["Framework".data, "Builds trust.".data] : List (List Char))[1])]) ∧
     build_content_pieces ["Framework".data, "Builds trust.".data] =
       (chunksFrom (false, none) ["Framework".data, "Builds trust.".data]).flatten ++
       (if (rstate ["Framework".data, "Builds trust.".data]).1 then [Piece.ulClose] else [])) :=
  ⟨⟨by decide, by decide⟩,
   bullet_decision_iff ["Framework".data, "Builds trust.".data] 1 (by decide) (by decide)⟩

/-! ## Page Assembler: gallery block -/

theorem subSeg_refl (l : List Char) : SubSeg l l := ⟨[], [], by simp⟩

theorem subSeg_trans {a b c : List Char} (h1 : SubSeg a b) (h2 : SubSeg b c) :
    SubSeg a c := by
  obtain ⟨s, t, h⟩ := h1
  obtain ⟨s', t', h'⟩ := h2
  exact ⟨s' ++ s, t ++ t', by rw [← h', ← h]; simp⟩

theorem subSeg_append_right (a : List Char) {l b : List Char} (h : SubSeg l b) :
    SubSeg l (a ++ b) := by
  obtain ⟨s, t, hs⟩ := h
  exact ⟨a ++ s, t, by rw [← hs]; simp⟩

theorem subSeg_append_left (b : List Char) {l a : List Char} (h : SubSeg l a) :
    SubSeg l (a ++ b) := by
  obtain ⟨s, t, hs⟩ := h
  exact ⟨s, t ++ b, by rw [← hs]; simp⟩

theorem subSeg_joinNL : ∀ (l : List (List Char)) (x : List Char), x ∈ l →
    SubSeg x (joinNL l) := by
  intro l
  induction l with
  | nil => intro x h; simp at h
  | cons a t ih =>
      intro x h
      rcases List.mem_cons.mp h with rfl | hx
      · cases t with
        | nil => exact subSeg_refl x
        | cons b t2 => exact ⟨[], '\n' :: joinNL (b :: t2), by simp [joinNL]⟩
      · cases t with
        | nil => simp at hx
        | cons b t2 =>
            obtain ⟨s, u, hsu⟩ := ih x hx
            exact ⟨a ++ '\n' :: s, u, by
              rw [show joinNL (a :: b :: t2) = a ++ '\n' :: joinNL (b :: t2) from rfl, ← hsu]
              simp⟩

/-- C8: a document with no extracted media asset gets a page with no gallery
block (the gallery contributes nothing to `wrap_page`'s output); when at
least one image was extracted, the page contains, for every extracted
filename, its gallery figure path `../images/<key>/<filename>`. -/
theorem wrap_page_gallery_spec (key title content : List Char)
    (imgs : List (List Char)) :
    (imgs = [] → wrap_page key title content imgs = pageNoGallery key title content) ∧
    (∀ name, name ∈ imgs →
      SubSeg (imgPath key name) (wrap_page key title content imgs)) := by
  have hw : wrap_page key title content imgs =
      (tplA ++ escape title ++ tplB ++ navHtml ++ tplC ++ escape title ++ tplD ++
        content ++ tplE) ++ gallery key imgs ++ tplF := rfl
  constructor
  · intro h
    subst h
    have hgal : gallery key [] = ([] : List Char) := rfl
    rw [hw, hgal, List.append_nil]
    rfl
  · intro name hname
    have hfig : SubSeg (imgPath key name) (galleryFig key name) :=
      ⟨"<figure class=\"img\"><img src=\"".data,
       "\" alt=\"".data ++ escape name ++ "\"><figcaption>".data ++ escape name ++
         "</figcaption></figure>".data,
       by simp [galleryFig]⟩
    have hg : SubSeg (imgPath key name) (gallery key imgs) := by
      cases imgs with
      | nil => simp at hname
      | cons n rest =>
          have hgeq : gallery key (n :: rest) =
              (galA ++ joinNL ((n :: rest).map (galleryFig key))) ++ galB := rfl
          have hJ : SubSeg (galleryFig key name)
              (joinNL ((n :: rest).map (galleryFig key))) :=
            subSeg_joinNL _ _ (List.mem_map_of_mem _ hname)
          rw [hgeq]
          exact subSeg_append_left galB
            (subSeg_append_right galA (subSeg_trans hfig hJ))
    rw [hw]
    exact subSeg_append_left tplF (subSeg_append_right _ hg)

/-- C8 witness: the empty image list yields the gallery-free page, and with
one extracted image the page contains its `../images/sports/image1.png`
path. -/
theorem wrap_page_gallery_spec_witness :
    (([] : List (List Char)) = [] ∧
     wrap_page "sports".data "T".data "C".data [] =
       pageNoGallery "sports".data "T".data "C".data) ∧
    ("image1.png".data ∈ (["image1.png".data] : List (List Char)) ∧
     SubSeg (imgPath "sports".data "image1.png".data)
       (wrap_page "sports".data "T".data "C".data ["image1.png".data])) :=
  ⟨⟨rfl, (wrap_page_gallery_spec "sports".data "T".data "C".data []).1 rfl⟩,
   ⟨by simp, (wrap_page_gallery_spec "sports".data "T".data "C".data
      ["image1.png".data]).2 "image1.png".data (by simp)⟩⟩
